import Mathlib

/-!
Verification of the GitHub-release bundle-cache populator of
`core/hooks/bootstrap.py` (class `Bootstrap`).

The Python hook is embedded shallowly:

* `Descriptor` mirrors the descriptor dictionary (`descriptor.get_dict()`
  plus `descriptor.version`); optional dictionary entries are `Option String`
  and Python truthiness of a string (`if not desc.get("organization")`) is
  `= ""` on the payload.
* The class attribute `_download_release_from_github` is the constant
  `download_release_from_github`; the methods take the list as an explicit
  parameter (it is read through `self`, so a configuration may supply it).
* Network and filesystem side effects are reified as an `Event` trace and an
  explicit `FsState`; the network responses the process would observe
  (platform, release lookup answer, per-asset download outcome) are an `Env`
  oracle passed in.
* Python `re.match` is embedded for exactly the pattern shape the source
  builds — `r"%s-py\d.\d-%s.zip" % (version, pname)` — as a list of
  single-character atoms: every `.` (whether written in the pattern or coming
  from the interpolated `version`/`pname` strings) is the any-character
  metaclass, `\d` is the digit class, every other character is a literal.
  This is exact whenever `version` and `pname` contain no regex
  metacharacter other than `.`, which holds for release tags such as
  `v1.2.3` and for the three platform names. `re.match` anchors at the start
  only, so the embedding accepts any string extending a match of the atoms.
-/

/-- A single-character regex atom, as produced by the asset-name pattern of
`populate_bundle_cache_entry` (`bootstrap.py` line 141). -/
inductive RAtom where
  | lit (c : Char)
  | anyChar
  | digit
deriving DecidableEq

/-- Whether one atom accepts one character. -/
def RAtom.accepts : RAtom → Char → Bool
  | .lit c, d => c = d
  | .anyChar, _ => true
  | .digit, d => d.isDigit

/-- Interpolating a plain string into the pattern: `.` becomes the
any-character metaclass, every other character a literal (exact for strings
free of other metacharacters). -/
def atomsOfStr (s : String) : List RAtom :=
  s.data.map (fun c => if c = '.' then RAtom.anyChar else RAtom.lit c)

/-- The pattern `r"%s-py\d.\d-%s.zip" % (version, pname)` as atoms. -/
def assetPattern (version pname : String) : List RAtom :=
  atomsOfStr version
    ++ [RAtom.lit '-', RAtom.lit 'p', RAtom.lit 'y',
        RAtom.digit, RAtom.anyChar, RAtom.digit, RAtom.lit '-']
    ++ atomsOfStr pname
    ++ [RAtom.anyChar, RAtom.lit 'z', RAtom.lit 'i', RAtom.lit 'p']

/-- Run a quantifier-free atom list against the start of a character list;
trailing characters are ignored (`re.match` anchors only at the start). -/
def matchAtoms : List RAtom → List Char → Bool
  | [], _ => true
  | _ :: _, [] => false
  | a :: as, c :: cs => a.accepts c && matchAtoms as cs

/-- `re.match(r"%s-py\d.\d-%s.zip" % (version, pname), name)` is truthy
(`bootstrap.py` lines 140-144). -/
def reMatch (version pname name : String) : Bool :=
  matchAtoms (assetPattern version pname) name.data

/-- The descriptor dictionary of a bundle, plus its `version` attribute. -/
structure Descriptor where
  type : String
  organization : Option String
  repository : Option String
  path : Option String
  version : String
deriving DecidableEq

/-- The class attribute `_download_release_from_github` (`bootstrap.py`
lines 35-38): registered `(repository identifier, token)` pairs. -/
def download_release_from_github : List (String × String) :=
  [("ue4plugins/tk-framework-unrealqt", ""),
   ("GPLgithub/tk-framework-unrealqt", "")]

/-- `Bootstrap._should_download_release` (`bootstrap.py` lines 170-192):
return the `(name, token)` registered pair the descriptor resolves to, if
any. `sources` is the list the instance reads from
`self._download_release_from_github`. -/
def should_download_release (sources : List (String × String))
    (desc : Descriptor) : Option (String × String) :=
  if desc.type = "github_release" then
    match desc.organization, desc.repository with
    | some org, some repo =>
      if org = "" || repo = "" then none
      else
        let descPath := org ++ "/" ++ repo
        sources.find? (fun p => p.1 = descPath)
    | _, _ => none
  else
    match desc.path with
    | some p =>
      if p = "" then none
      else sources.find? (fun q => "git@github.com:" ++ q.1 ++ ".git" = p)
    | none => none

/-- `Bootstrap.can_cache_bundle` (`bootstrap.py` lines 40-57):
`bool(self._should_download_release(descd))`. -/
def can_cache_bundle (sources : List (String × String))
    (desc : Descriptor) : Bool :=
  (should_download_release sources desc).isSome

/-- The platform-identifier mapping of `populate_bundle_cache_entry`
(`bootstrap.py` lines 128-132): `{"Darwin": "osx", "Linux": "linux",
"Windows": "win"}.get(platform.system())`. -/
def pnameOf (system : String) : Option String :=
  if system = "Darwin" then some "osx"
  else if system = "Linux" then some "linux"
  else if system = "Windows" then some "win"
  else none

/-- A release asset: its `name`, its API `url` and the paths contained in
its zip payload. -/
structure Asset where
  name : String
  url : String
  entries : List String
deriving DecidableEq

/-- A urllib request: the target url, the ordinary headers (forwarded on a
redirect) and the unredirected headers (sent to the initial host only). -/
structure Request where
  url : String
  headers : List (String × String)
  unredirectedHeaders : List (String × String)
deriving DecidableEq

/-- The asset-download request built by `_download_zip_github_asset`
(`bootstrap.py` lines 239-244): the Authorization token, when present, goes
through `add_unredirected_header`; `Accept` through `add_header`. -/
def assetRequest (url token : String) : Request :=
  { url := url
    headers := [("Accept", "application/octet-stream")]
    unredirectedHeaders :=
      if token ≠ "" then [("Authorization", "token " ++ token)] else [] }

/-- urllib semantics: the initial host receives ordinary and unredirected
headers alike. -/
def headersSentToInitialHost (r : Request) : List (String × String) :=
  r.headers ++ r.unredirectedHeaders

/-- urllib semantics: a redirect target receives only the ordinary headers;
headers added with `add_unredirected_header` are not forwarded. -/
def headersSentOnRedirect (r : Request) : List (String × String) :=
  r.headers

/-- One observable step of the hook. -/
inductive Event where
  | logInfo (msg : String)
  | logError (msg : String)
  | logException
  | installOpener (proxy : Bool)
  | httpGetRelease (url : String) (auth : Bool)
  | httpGetAsset (r : Request)
  | createDir (path : String)
  | writeFile (path : String)
  | extractZip (zipPath dest : String)
deriving DecidableEq

/-- Files on disk: whether `destination` exists yet, and the files written
so far (the hook only ever adds files; nothing is removed). -/
structure FsState where
  destCreated : Bool
  files : List String
deriving DecidableEq

/-- The responses the process would observe: `platform.system()`, the
proxy configuration, whether `destination` already exists, the release
lookup answer (`Except` a `URLError` whose optional HTTP code is carried)
and a per-asset download outcome keyed by asset name. -/
structure Env where
  system : String
  proxy : Bool
  destExists : Bool
  release : Except (Option Nat) (List Asset)
  downloadFail : String → Option Nat

/-- The exceptions `populate_bundle_cache_entry` can raise, payloads carried
unchanged: the `RuntimeError` for an unresolvable descriptor, the propagated
`URLError` of the release lookup, the `ValueError` for an unknown platform,
a propagated per-asset download/extraction error, and the `RuntimeError`
listing every asset name when none matched. -/
inductive PopErr where
  | configurationError (desc : Descriptor)
  | urlError (code : Option Nat)
  | unsupportedPlatform (system : String)
  | downloadError (code : Nat)
  | noMatchingAsset (names : List String)
deriving DecidableEq

/-- `os.path.join(destination, name)`. -/
def pjoin (a b : String) : String := a ++ "/" ++ b

/-- `Bootstrap._download_zip_github_asset` (`bootstrap.py` lines 194-253):
install an opener, request the asset url (auth header unredirected), and on
success create `destination` if absent, write the zip file
`destination/<name>` and extract its entries into `destination`. A download
failure (the `Env` oracle) raises before anything is written. -/
def download_zip_github_asset (env : Env) (asset : Asset)
    (destination token : String) (st : FsState) :
    Except Nat Unit × FsState × List Event :=
  let pre := [Event.installOpener env.proxy,
              Event.httpGetAsset (assetRequest asset.url token)]
  match env.downloadFail asset.name with
  | some e => (.error e, st, pre)
  | none =>
    let (st1, mkEvs) :=
      if st.destCreated then (st, ([] : List Event))
      else ({ st with destCreated := true }, [Event.createDir destination])
    let tmp := pjoin destination asset.name
    let st2 : FsState :=
      { st1 with
        files := st1.files ++ tmp :: asset.entries.map (pjoin destination) }
    (.ok (), st2,
      pre ++ mkEvs ++ [Event.writeFile tmp, Event.extractZip tmp destination])

/-- The asset loop of `populate_bundle_cache_entry` (`bootstrap.py` lines
137-151): walk the asset list in API order, download and extract every
asset whose name the pattern matches, collect them in `extracted`, and stop
at the first failure, which propagates. -/
def processAssets (env : Env) (version pname destination token : String) :
    List Asset → FsState → Except Nat (List Asset) × FsState × List Event
  | [], st => (.ok [], st, [])
  | a :: rest, st =>
    if reMatch version pname a.name then
      match download_zip_github_asset env a destination token st with
      | (.error e, st2, evs) => (.error e, st2, evs)
      | (.ok _, st2, evs) =>
        match processAssets env version pname destination token rest st2 with
        | (.ok ex, st3, evs2) => (.ok (a :: ex), st3, evs ++ evs2)
        | (.error e, st3, evs2) => (.error e, st3, evs ++ evs2)
    else processAssets env version pname destination token rest st

/-- The release-lookup url (`bootstrap.py` line 105). -/
def releaseUrl (name version : String) : String :=
  "https://api.github.com/repos/" ++ name ++ "/releases/tags/" ++ version

/-- The error log the lookup handler emits for a given `URLError` code
(`bootstrap.py` lines 113-119) before re-raising the original error. -/
def lookupErrorLog (version : String) : Option Nat → List Event
  | some 404 => [Event.logError ("Release " ++ version ++ " does not exists")]
  | some 401 =>
      [Event.logError ("Not authorised to access release " ++ version ++ ".")]
  | _ => []

/-- `Bootstrap.populate_bundle_cache_entry` (`bootstrap.py` lines 59-168).
Returns the outcome, the final filesystem state and the event trace. -/
def populate_bundle_cache_entry (sources : List (String × String))
    (env : Env) (destination : String) (desc : Descriptor) :
    Except PopErr Unit × FsState × List Event :=
  let st0 : FsState := { destCreated := env.destExists, files := [] }
  let log0 := [Event.logInfo ("Treating " ++ desc.type)]
  match should_download_release sources desc with
  | none => (.error (.configurationError desc), st0, log0)
  | some (name, token) =>
    let proxyEvs := if env.proxy then [Event.installOpener true] else []
    let ev1 := log0 ++ proxyEvs
      ++ [Event.httpGetRelease (releaseUrl name desc.version) (token ≠ "")]
    match env.release with
    | .error code =>
      (.error (.urlError code), st0,
        ev1 ++ lookupErrorLog desc.version code ++ [Event.logException])
    | .ok assets =>
      match pnameOf env.system with
      | none =>
        (.error (.unsupportedPlatform env.system), st0,
          ev1 ++ [Event.logException])
      | some pname =>
        match processAssets env desc.version pname destination token
            assets st0 with
        | (.error e, st, evs) =>
          (.error (.downloadError e), st, ev1 ++ evs ++ [Event.logException])
        | (.ok extracted, st, evs) =>
          if extracted.isEmpty then
            (.error (.noMatchingAsset (assets.map Asset.name)), st,
              ev1 ++ evs ++ [Event.logException])
          else
            (.ok (), st, ev1 ++ evs ++ [Event.logInfo "Extracted files"])

/-- The asset urls requested in a trace. -/
def requestedAssets (evs : List Event) : List String :=
  evs.filterMap (fun e => match e with
    | .httpGetAsset r => some r.url
    | _ => none)

/-- Events that touch the network or the filesystem (everything but
logging and local HTTP-client configuration). -/
def isEffectEvent : Event → Bool
  | .logInfo _ => false
  | .logError _ => false
  | .logException => false
  | .installOpener _ => false
  | _ => true

/-- The literal reading of the spec's asset-name pattern
`{version}-py{digit}.{digit}-{platform}.zip`: the name is exactly the
concatenation, the dots being real dots. -/
def specLiteralMatch (version pname name : String) : Bool :=
  (List.range 10).any (fun i => (List.range 10).any (fun j =>
    name = version ++ "-py" ++ toString i ++ "." ++ toString j ++ "-"
      ++ pname ++ ".zip"))

/-- Modelled from the spec: the error-taxonomy table defines
`NotFoundError` as the failure raised when the release lookup reports
HTTP 404. -/
def isNotFoundOutcome : Except PopErr Unit → Bool
  | .error (.urlError (some 404)) => true
  | _ => false

/-- Modelled from the spec: the error-taxonomy table defines
`UnauthorizedError` as the failure raised when the release lookup reports
HTTP 401. -/
def isUnauthorizedOutcome : Except PopErr Unit → Bool
  | .error (.urlError (some 401)) => true
  | _ => false

example : reMatch "v1.2.3" "osx" "v1.2.3-py2.7-osx.zip" = true := by decide
example : reMatch "v1.2.3" "osx" "v1.2.3-py2.7-linux.zip" = false := by decide
example : reMatch "v1.2.3" "osx" "v1a2a3-py2b7-osxczipzz" = true := by decide
example : specLiteralMatch "v1.2.3" "osx" "v1a2a3-py2b7-osxczipzz" = false := by
  decide
example : specLiteralMatch "v1.2.3" "osx" "v1.2.3-py2.7-osx.zip" = true := by
  decide

/-- Abbreviation for the selection predicate of the asset loop. -/
def assetMatches (version pname : String) (a : Asset) : Bool :=
  reMatch version pname a.name

lemma requestedAssets_append (l1 l2 : List Event) :
    requestedAssets (l1 ++ l2) = requestedAssets l1 ++ requestedAssets l2 :=
  List.filterMap_append l1 l2 _

lemma download_zip_fail (env : Env) (asset : Asset) (dst tok : String)
    (st : FsState) (e : Nat) (h : env.downloadFail asset.name = some e) :
    download_zip_github_asset env asset dst tok st
      = (.error e, st,
         [Event.installOpener env.proxy,
          Event.httpGetAsset (assetRequest asset.url tok)]) := by
  simp [download_zip_github_asset, h]

lemma download_zip_ok (env : Env) (asset : Asset) (dst tok : String)
    (st : FsState) (h : env.downloadFail asset.name = none) :
    download_zip_github_asset env asset dst tok st
      = (.ok (),
         { destCreated := true,
           files := st.files
             ++ pjoin dst asset.name :: asset.entries.map (pjoin dst) },
         ([Event.installOpener env.proxy,
           Event.httpGetAsset (assetRequest asset.url tok)]
           ++ (if st.destCreated then [] else [Event.createDir dst])
           ++ [Event.writeFile (pjoin dst asset.name),
               Event.extractZip (pjoin dst asset.name) dst])) := by
  cases hd : st.destCreated <;> simp [download_zip_github_asset, h, hd]

lemma processAssets_no_match (env : Env) (v p dst tok : String) :
    ∀ (assets : List Asset) (st : FsState),
      (∀ a ∈ assets, assetMatches v p a = false) →
      processAssets env v p dst tok assets st = (.ok [], st, []) := by
  intro assets
  induction assets with
  | nil => intro st _; rfl
  | cons a rest ih =>
    intro st h
    have ha : reMatch v p a.name = false := h a (List.mem_cons_self a rest)
    simp only [processAssets, ha, Bool.false_eq_true, if_false]
    exact ih st (fun b hb => h b (List.mem_cons_of_mem a hb))


lemma processAssets_ok (env : Env) (v p dst tok : String) :
    ∀ (assets : List Asset) (st : FsState),
      (∀ a ∈ assets, assetMatches v p a = true →
        env.downloadFail a.name = none) →
      (processAssets env v p dst tok assets st).1
          = .ok (assets.filter (assetMatches v p))
      ∧ requestedAssets (processAssets env v p dst tok assets st).2.2
          = (assets.filter (assetMatches v p)).map Asset.url
      ∧ (∀ f ∈ st.files,
          f ∈ (processAssets env v p dst tok assets st).2.1.files)
      ∧ (∀ a ∈ assets, assetMatches v p a = true →
          pjoin dst a.name
            ∈ (processAssets env v p dst tok assets st).2.1.files) := by
  intro assets
  induction assets with
  | nil =>
    intro st _
    exact ⟨rfl, rfl, fun f hf => hf, fun a ha => absurd ha (by simp)⟩
  | cons a rest ih =>
    intro st h
    by_cases hm : reMatch v p a.name = true
    · have hdl := download_zip_ok env a dst tok st
        (h a (List.mem_cons_self a rest) hm)
      obtain ⟨ih1, ih2, ih3, ih4⟩ :=
        ih { destCreated := true,
             files := st.files
               ++ pjoin dst a.name :: a.entries.map (pjoin dst) }
          (fun b hb => h b (List.mem_cons_of_mem a hb))
      rcases hPA : processAssets env v p dst tok rest
          { destCreated := true,
            files := st.files
              ++ pjoin dst a.name :: a.entries.map (pjoin dst) }
        with ⟨res, st3, evs3⟩
      rw [hPA] at ih1 ih2 ih3 ih4
      dsimp only at ih1 ih2 ih3 ih4
      subst ih1
      simp only [processAssets, hm, if_true, hdl, hPA]
      refine ⟨?_, ?_, ?_, ?_⟩
      · rw [List.filter_cons_of_pos (by simpa [assetMatches] using hm)]
      · rw [requestedAssets_append,
          List.filter_cons_of_pos (by simpa [assetMatches] using hm), ih2]
        cases hd : st.destCreated <;> simp [requestedAssets, hd, assetRequest]
      · intro f hf
        exact ih3 f (List.mem_append_left _ hf)
      · intro b hb hbm
        rcases List.mem_cons.mp hb with hba | hbr
        · subst hba
          exact ih3 _ (List.mem_append_right _ (List.mem_cons_self _ _))
        · exact ih4 b hbr hbm
    · have hm' : reMatch v p a.name = false := by
        cases hval : reMatch v p a.name
        · rfl
        · exact absurd hval hm
      obtain ⟨ih1, ih2, ih3, ih4⟩ :=
        ih st (fun b hb => h b (List.mem_cons_of_mem a hb))
      simp only [processAssets, hm', Bool.false_eq_true, if_false]
      refine ⟨?_, ?_, ih3, ?_⟩
      · rw [ih1, List.filter_cons_of_neg (by simpa [assetMatches] using hm')]
      · rw [ih2, List.filter_cons_of_neg (by simpa [assetMatches] using hm')]
      · intro b hb hbm
        rcases List.mem_cons.mp hb with hba | hbr
        · subst hba; exact absurd hbm (by simp [assetMatches, hm'])
        · exact ih4 b hbr hbm

lemma processAssets_fail (env : Env) (v p dst tok : String) (e : Nat) :
    ∀ (pre : List Asset) (bad : Asset) (post : List Asset) (st : FsState),
      (∀ a ∈ pre, assetMatches v p a = true →
        env.downloadFail a.name = none) →
      assetMatches v p bad = true →
      env.downloadFail bad.name = some e →
      (processAssets env v p dst tok (pre ++ bad :: post) st).1 = .error e
      ∧ requestedAssets
            (processAssets env v p dst tok (pre ++ bad :: post) st).2.2
          = (pre.filter (assetMatches v p)).map Asset.url ++ [bad.url]
      ∧ (∀ f ∈ st.files,
          f ∈ (processAssets env v p dst tok (pre ++ bad :: post) st).2.1.files)
      ∧ (∀ a ∈ pre, assetMatches v p a = true →
          pjoin dst a.name
            ∈ (processAssets env v p dst tok
                (pre ++ bad :: post) st).2.1.files) := by
  intro pre
  induction pre with
  | nil =>
    intro bad post st _ hbm hbf
    have hbm' : reMatch v p bad.name = true := by simpa [assetMatches] using hbm
    simp only [List.nil_append, processAssets, hbm', if_true,
      download_zip_fail env bad dst tok st e hbf]
    exact ⟨by trivial, by simp [requestedAssets, assetRequest], fun f hf => hf,
      fun a ha => absurd ha (by simp)⟩
  | cons a pre' ih =>
    intro bad post st h hbm hbf
    rw [List.cons_append]
    by_cases hm : reMatch v p a.name = true
    · have hdl := download_zip_ok env a dst tok st
        (h a (List.mem_cons_self a pre') hm)
      obtain ⟨ih1, ih2, ih3, ih4⟩ :=
        ih bad post
          { destCreated := true,
            files := st.files
              ++ pjoin dst a.name :: a.entries.map (pjoin dst) }
          (fun b hb => h b (List.mem_cons_of_mem a hb)) hbm hbf
      rcases hPA : processAssets env v p dst tok (pre' ++ bad :: post)
          { destCreated := true,
            files := st.files
              ++ pjoin dst a.name :: a.entries.map (pjoin dst) }
        with ⟨res, st3, evs3⟩
      rw [hPA] at ih1 ih2 ih3 ih4
      dsimp only at ih1 ih2 ih3 ih4
      subst ih1
      simp only [processAssets, hm, if_true, hdl, hPA]
      refine ⟨by trivial, ?_, ?_, ?_⟩
      · rw [requestedAssets_append,
          List.filter_cons_of_pos (by simpa [assetMatches] using hm), ih2]
        cases hd : st.destCreated <;> simp [requestedAssets, hd, assetRequest]
      · intro f hf
        exact ih3 f (List.mem_append_left _ hf)
      · intro b hb hbm'
        rcases List.mem_cons.mp hb with hba | hbr
        · subst hba
          exact ih3 _ (List.mem_append_right _ (List.mem_cons_self _ _))
        · exact ih4 b hbr hbm'
    · have hm' : reMatch v p a.name = false := by
        cases hval : reMatch v p a.name
        · rfl
        · exact absurd hval hm
      obtain ⟨ih1, ih2, ih3, ih4⟩ :=
        ih bad post st (fun b hb => h b (List.mem_cons_of_mem a hb)) hbm hbf
      simp only [processAssets, hm', Bool.false_eq_true, if_false]
      refine ⟨ih1, ?_, ih3, ?_⟩
      · rw [ih2, List.filter_cons_of_neg (by simpa [assetMatches] using hm')]
      · intro b hb hbm'
        rcases List.mem_cons.mp hb with hba | hbr
        · subst hba; exact absurd hbm' (by simp [assetMatches, hm'])
        · exact ih4 b hbr hbm'

lemma git_url_ne_empty (nm : String) :
    ("git@github.com:" ++ nm ++ ".git") ≠ "" := by
  intro h
  have h2 := congrArg String.data h
  rw [String.data_append, String.data_append] at h2
  rcases List.append_eq_nil.mp h2 with ⟨_, h4⟩
  exact absurd h4 (by decide)

lemma can_cache_bundle_iff_core (sources : List (String × String))
    (d : Descriptor) :
    can_cache_bundle sources d = true ↔
      ((d.type = "github_release"
          ∧ ∃ org repo, d.organization = some org ∧ d.repository = some repo
            ∧ org ≠ "" ∧ repo ≠ ""
            ∧ ∃ tok, (org ++ "/" ++ repo, tok) ∈ sources)
        ∨ (d.type ≠ "github_release"
          ∧ ∃ p nm tok, d.path = some p ∧ (nm, tok) ∈ sources
            ∧ p = "git@github.com:" ++ nm ++ ".git")) := by
  unfold can_cache_bundle should_download_release
  by_cases ht : d.type = "github_release"
  · rw [if_pos ht]
    constructor
    · intro h
      left
      refine ⟨ht, ?_⟩
      cases horg : d.organization with
      | none => rw [horg] at h; simp at h
      | some org =>
        cases hrep : d.repository with
        | none => rw [horg, hrep] at h; simp at h
        | some repo =>
          rw [horg, hrep] at h
          dsimp only at h
          by_cases hoe : (decide (org = "") || decide (repo = "")) = true
          · rw [if_pos hoe] at h; simp at h
          · rw [if_neg hoe] at h
            obtain ⟨x, hx, hpx⟩ := List.find?_isSome.mp h
            have hx1 : x.1 = org ++ "/" ++ repo := by simpa using hpx
            have hoe' : ¬org = "" ∧ ¬repo = "" := by
              simpa [not_or] using hoe
            refine ⟨org, repo, rfl, rfl, hoe'.1, hoe'.2, x.2, ?_⟩
            rw [← hx1]
            exact hx
    · rintro (⟨_, org, repo, horg, hrep, ho, hr, tok, hmem⟩ | ⟨hne, _⟩)
      · rw [horg, hrep]
        dsimp only
        have hcond : (decide (org = "") || decide (repo = "")) = false := by
          simp [ho, hr]
        rw [hcond]
        simp only [Bool.false_eq_true, if_false]
        exact List.find?_isSome.mpr ⟨(org ++ "/" ++ repo, tok), hmem, by simp⟩
      · exact absurd ht hne
  · rw [if_neg ht]
    cases hp : d.path with
    | none =>
      simp only [Option.isSome_none, Bool.false_eq_true, false_iff]
      rintro (⟨ht', _⟩ | ⟨_, p, nm, tok, hps, _, _⟩)
      · exact ht ht'
      · exact Option.noConfusion hps
    | some p =>
      dsimp only
      by_cases hpe : p = ""
      · rw [if_pos hpe]
        simp only [Option.isSome_none, Bool.false_eq_true, false_iff]
        rintro (⟨ht', _⟩ | ⟨_, p', nm, tok, hps, _, hform⟩)
        · exact ht ht'
        · have hpp : p = p' := Option.some.inj hps
          exact git_url_ne_empty nm (by rw [← hform, ← hpp, hpe])
      · rw [if_neg hpe]
        constructor
        · intro h
          obtain ⟨x, hx, hpx⟩ := List.find?_isSome.mp h
          have hx1 : "git@github.com:" ++ x.1 ++ ".git" = p := by simpa using hpx
          exact Or.inr ⟨ht, p, x.1, x.2, rfl, hx, hx1.symm⟩
        · rintro (⟨ht', _⟩ | ⟨_, p', nm, tok, hps, hmem, hform⟩)
          · exact absurd ht' ht
          · have hpp : p = p' := Option.some.inj hps
            exact List.find?_isSome.mpr
              ⟨(nm, tok), hmem, by simp [hpp, hform]⟩

/-- C2 (amended): `can_cache_bundle` returns true iff the descriptor yields
an `organization/repository` identifier that is registered — from a
`github_release` descriptor with non-empty `organization` and `repository`,
or, for any other descriptor type, from a `path` equal to
`git@github.com:{organization}/{repository}.git` for a registered pair, the
host being fixed to `github.com`. The operation is a pure function of the
descriptor and the registered list. -/
theorem can_cache_bundle_resolves_registered_identifier
    (sources : List (String × String)) (d : Descriptor) :
    can_cache_bundle sources d = true ↔
      ((d.type = "github_release"
          ∧ ∃ org repo, d.organization = some org ∧ d.repository = some repo
            ∧ org ≠ "" ∧ repo ≠ ""
            ∧ ∃ tok, (org ++ "/" ++ repo, tok) ∈ sources)
        ∨ (d.type ≠ "github_release"
          ∧ ∃ p nm tok, d.path = some p ∧ (nm, tok) ∈ sources
            ∧ p = "git@github.com:" ++ nm ++ ".git")) :=
  can_cache_bundle_iff_core sources d

/-- C2 (witness): a registered `github_release` descriptor is accepted. -/
theorem can_cache_bundle_resolves_registered_identifier_witness :
    can_cache_bundle download_release_from_github
      { type := "github_release", organization := some "ue4plugins",
        repository := some "tk-framework-unrealqt", path := none,
        version := "v1.2.3" } = true :=
  (can_cache_bundle_resolves_registered_identifier download_release_from_github
      { type := "github_release", organization := some "ue4plugins",
        repository := some "tk-framework-unrealqt", path := none,
        version := "v1.2.3" }).mpr
    (Or.inl ⟨rfl, "ue4plugins", "tk-framework-unrealqt", rfl, rfl,
      by decide, by decide, "", by decide⟩)

/-- C2 (counterexample): a descriptor whose `path` has git-URL form
`git@<host>:{organization}/{repository}.git` with a registered identifier
but a host other than `github.com` is rejected by `can_cache_bundle`, so
the claim's host-independent derivation does not hold on the code. -/
theorem can_cache_bundle_rejects_foreign_host :
    ("ue4plugins/tk-framework-unrealqt", "") ∈ download_release_from_github
    ∧ can_cache_bundle download_release_from_github
        { type := "git", organization := none, repository := none,
          path := some "git@gitlab.com:ue4plugins/tk-framework-unrealqt.git",
          version := "v1.2.3" } = false :=
  ⟨by decide, by decide⟩

/-- C3 (amended): for every descriptor that is not of the `github_release`
type and whose `path` is exactly `git@github.com:{organization}/{repository}.git`
with `{organization}/{repository}` registered, `can_cache_bundle` returns
true; the host part is fixed to `github.com`, not arbitrary. -/
theorem can_cache_bundle_accepts_registered_github_path
    (sources : List (String × String)) (d : Descriptor) (nm tok : String)
    (hmem : (nm, tok) ∈ sources)
    (ht : d.type ≠ "github_release")
    (hp : d.path = some ("git@github.com:" ++ nm ++ ".git")) :
    can_cache_bundle sources d = true :=
  (can_cache_bundle_iff_core sources d).mpr
    (Or.inr ⟨ht, "git@github.com:" ++ nm ++ ".git", nm, tok, hp, hmem, rfl⟩)

/-- C3 (witness): the registered repository reached through a
`github.com` git path is accepted. -/
theorem can_cache_bundle_accepts_registered_github_path_witness :
    ("ue4plugins/tk-framework-unrealqt", "") ∈ download_release_from_github
    ∧ can_cache_bundle download_release_from_github
        { type := "git", organization := none, repository := none,
          path := some "git@github.com:ue4plugins/tk-framework-unrealqt.git",
          version := "v1.2.3" } = true :=
  ⟨by decide,
    can_cache_bundle_accepts_registered_github_path
      download_release_from_github
      { type := "git", organization := none, repository := none,
        path := some "git@github.com:ue4plugins/tk-framework-unrealqt.git",
        version := "v1.2.3" }
      "ue4plugins/tk-framework-unrealqt" "" (by decide) (by decide) (by decide)⟩

/-- C3 (counterexample): the very path form the claim allows for an
arbitrary host, `git@myhost:org/repo.git` with registered `org/repo`, is
rejected: `_should_download_release` compares against
`git@github.com:{org}/{repo}.git` only. -/
theorem can_cache_bundle_rejects_nondefault_host :
    ("ue4plugins/tk-framework-unrealqt", "") ∈ download_release_from_github
    ∧ can_cache_bundle download_release_from_github
        { type := "git", organization := none, repository := none,
          path := some "git@myhost:ue4plugins/tk-framework-unrealqt.git",
          version := "v1.2.3" } = false :=
  ⟨by decide, by decide⟩

/-- C4: when the descriptor does not resolve to a registered source
(`can_cache_bundle` is false), `populate_bundle_cache_entry` raises the
configuration error naming the descriptor, the filesystem is untouched and
the trace holds no network or filesystem event. -/
theorem populate_unresolvable_raises_configuration_error
    (sources : List (String × String)) (env : Env)
    (destination : String) (desc : Descriptor)
    (h : can_cache_bundle sources desc = false) :
    populate_bundle_cache_entry sources env destination desc
      = (.error (.configurationError desc),
         { destCreated := env.destExists, files := [] },
         [Event.logInfo ("Treating " ++ desc.type)])
    ∧ (populate_bundle_cache_entry sources env destination desc).2.2.filter
        isEffectEvent = [] := by
  have hnone : should_download_release sources desc = none := by
    cases hopt : should_download_release sources desc with
    | none => rfl
    | some v => rw [can_cache_bundle, hopt] at h; simp at h
  constructor
  · simp [populate_bundle_cache_entry, hnone]
  · simp [populate_bundle_cache_entry, hnone, isEffectEvent]

/-- C4 (witness): an `app_store` descriptor is unresolvable and fails
before any effect. -/
theorem populate_unresolvable_raises_configuration_error_witness :
    populate_bundle_cache_entry download_release_from_github
      ⟨"Darwin", false, false, .ok [], fun _ => none⟩ "/dest"
      ⟨"app_store", none, none, none, "v1"⟩
      = (.error (.configurationError ⟨"app_store", none, none, none, "v1"⟩),
         { destCreated := false, files := [] },
         [Event.logInfo ("Treating " ++ "app_store")])
    ∧ (populate_bundle_cache_entry download_release_from_github
        ⟨"Darwin", false, false, .ok [], fun _ => none⟩ "/dest"
        ⟨"app_store", none, none, none, "v1"⟩).2.2.filter
        isEffectEvent = [] :=
  populate_unresolvable_raises_configuration_error
    download_release_from_github
    ⟨"Darwin", false, false, .ok [], fun _ => none⟩ "/dest"
    ⟨"app_store", none, none, none, "v1"⟩ (by decide)

/-- C5: when the release lookup fails, the original error is propagated
unmodified; an HTTP 404 is surfaced as the not-found failure (with its
diagnostic log), an HTTP 401 as the unauthorized failure (with its log),
and any other failure as-is. -/
theorem populate_release_lookup_error_propagation
    (sources : List (String × String)) (env : Env)
    (destination : String) (desc : Descriptor)
    (nm tok : String) (code : Option Nat)
    (hsd : should_download_release sources desc = some (nm, tok))
    (hrel : env.release = .error code) :
    (populate_bundle_cache_entry sources env destination desc).1
        = .error (.urlError code)
    ∧ (code = some 404 →
        isNotFoundOutcome
          (populate_bundle_cache_entry sources env destination desc).1 = true
        ∧ Event.logError ("Release " ++ desc.version ++ " does not exists")
            ∈ (populate_bundle_cache_entry sources env destination desc).2.2)
    ∧ (code = some 401 →
        isUnauthorizedOutcome
          (populate_bundle_cache_entry sources env destination desc).1 = true
        ∧ Event.logError
            ("Not authorised to access release " ++ desc.version ++ ".")
            ∈ (populate_bundle_cache_entry sources env destination desc).2.2) := by
  refine ⟨?_, ?_, ?_⟩
  · simp [populate_bundle_cache_entry, hsd, hrel]
  · intro h404
    subst h404
    constructor
    · simp [populate_bundle_cache_entry, hsd, hrel, isNotFoundOutcome]
    · simp [populate_bundle_cache_entry, hsd, hrel, lookupErrorLog]
  · intro h401
    subst h401
    constructor
    · simp [populate_bundle_cache_entry, hsd, hrel, isUnauthorizedOutcome]
    · simp [populate_bundle_cache_entry, hsd, hrel, lookupErrorLog]

/-- C5 (witness): a 404 from the release lookup of the registered
repository surfaces as the not-found failure. -/
theorem populate_release_lookup_error_propagation_witness :
    (populate_bundle_cache_entry download_release_from_github
        ⟨"Darwin", false, false, .error (some 404), fun _ => none⟩ "/dest"
        ⟨"github_release", some "ue4plugins",
          some "tk-framework-unrealqt", none, "v1.2.3"⟩).1
      = .error (.urlError (some 404))
    ∧ (some 404 = some 404 →
        isNotFoundOutcome
          (populate_bundle_cache_entry download_release_from_github
            ⟨"Darwin", false, false, .error (some 404), fun _ => none⟩ "/dest"
            ⟨"github_release", some "ue4plugins",
              some "tk-framework-unrealqt", none, "v1.2.3"⟩).1 = true
        ∧ Event.logError ("Release " ++ "v1.2.3" ++ " does not exists")
            ∈ (populate_bundle_cache_entry download_release_from_github
                ⟨"Darwin", false, false, .error (some 404), fun _ => none⟩
                "/dest"
                ⟨"github_release", some "ue4plugins",
                  some "tk-framework-unrealqt", none, "v1.2.3"⟩).2.2) := by
  have h := populate_release_lookup_error_propagation
    download_release_from_github
    ⟨"Darwin", false, false, .error (some 404), fun _ => none⟩ "/dest"
    ⟨"github_release", some "ue4plugins",
      some "tk-framework-unrealqt", none, "v1.2.3"⟩
    "ue4plugins/tk-framework-unrealqt" "" (some 404) (by decide) rfl
  exact ⟨h.1, fun _ => h.2.1 rfl⟩

/-- C6: when the fetched release has no asset matching the pattern for the
current platform, `populate_bundle_cache_entry` fails carrying the full
list of asset names seen, no file has been written and the only network
event is the release lookup itself: nothing was downloaded or extracted. -/
theorem populate_no_matching_asset_error
    (sources : List (String × String)) (env : Env)
    (destination : String) (desc : Descriptor)
    (nm tok pname : String) (assets : List Asset)
    (hsd : should_download_release sources desc = some (nm, tok))
    (hrel : env.release = .ok assets)
    (hpn : pnameOf env.system = some pname)
    (hno : ∀ a ∈ assets, assetMatches desc.version pname a = false) :
    populate_bundle_cache_entry sources env destination desc
      = (.error (.noMatchingAsset (assets.map Asset.name)),
         { destCreated := env.destExists, files := [] },
         [Event.logInfo ("Treating " ++ desc.type)]
           ++ (if env.proxy then [Event.installOpener true] else [])
           ++ [Event.httpGetRelease (releaseUrl nm desc.version) (tok ≠ "")]
           ++ [Event.logException])
    ∧ (populate_bundle_cache_entry sources env destination desc).2.2.filter
        isEffectEvent
      = [Event.httpGetRelease (releaseUrl nm desc.version) (tok ≠ "")] := by
  have hPA := processAssets_no_match env desc.version pname destination tok
    assets { destCreated := env.destExists, files := [] } hno
  constructor
  · simp [populate_bundle_cache_entry, hsd, hrel, hpn, hPA]
  · cases hprox : env.proxy <;>
      simp [populate_bundle_cache_entry, hsd, hrel, hpn, hPA, hprox,
        isEffectEvent]

/-- C6 (witness): a release holding only a linux asset on a Darwin host
fails with the full observed name list and writes nothing. -/
theorem populate_no_matching_asset_error_witness :
    populate_bundle_cache_entry download_release_from_github
      ⟨"Darwin", false, false,
        .ok [⟨"v1.2.3-py2.7-linux.zip", "u3", []⟩], fun _ => none⟩ "/dest"
      ⟨"github_release", some "ue4plugins",
        some "tk-framework-unrealqt", none, "v1.2.3"⟩
      = (.error (.noMatchingAsset ["v1.2.3-py2.7-linux.zip"]),
         { destCreated := false, files := [] },
         [Event.logInfo ("Treating " ++ "github_release")]
           ++ (if false then [Event.installOpener true] else [])
           ++ [Event.httpGetRelease
                (releaseUrl "ue4plugins/tk-framework-unrealqt" "v1.2.3")
                ((("" : String) ≠ ""))]
           ++ [Event.logException])
    ∧ (populate_bundle_cache_entry download_release_from_github
        ⟨"Darwin", false, false,
          .ok [⟨"v1.2.3-py2.7-linux.zip", "u3", []⟩], fun _ => none⟩ "/dest"
        ⟨"github_release", some "ue4plugins",
          some "tk-framework-unrealqt", none, "v1.2.3"⟩).2.2.filter
        isEffectEvent
      = [Event.httpGetRelease
          (releaseUrl "ue4plugins/tk-framework-unrealqt" "v1.2.3")
          ((("" : String) ≠ ""))] := by
  have h := populate_no_matching_asset_error download_release_from_github
    ⟨"Darwin", false, false,
      .ok [⟨"v1.2.3-py2.7-linux.zip", "u3", []⟩], fun _ => none⟩ "/dest"
    ⟨"github_release", some "ue4plugins",
      some "tk-framework-unrealqt", none, "v1.2.3"⟩
    "ue4plugins/tk-framework-unrealqt" "" "osx"
    [⟨"v1.2.3-py2.7-linux.zip", "u3", []⟩]
    (by decide) rfl rfl (by decide)
  exact h

/-- C7: the platform map sends Darwin, Linux and Windows to `osx`, `linux`
and `win` and nothing else anywhere; when `platform.system()` is outside
the map, `populate_bundle_cache_entry` fails with the
unsupported-platform error naming the system. -/
theorem populate_platform_mapping_and_unsupported
    : (pnameOf "Darwin" = some "osx" ∧ pnameOf "Linux" = some "linux"
        ∧ pnameOf "Windows" = some "win")
    ∧ (∀ s, s ≠ "Darwin" → s ≠ "Linux" → s ≠ "Windows" → pnameOf s = none)
    ∧ (∀ (sources : List (String × String)) (env : Env)
        (destination : String) (desc : Descriptor)
        (nm tok : String) (assets : List Asset),
        should_download_release sources desc = some (nm, tok) →
        env.release = .ok assets →
        pnameOf env.system = none →
        (populate_bundle_cache_entry sources env destination desc).1
          = .error (.unsupportedPlatform env.system)) := by
  refine ⟨⟨rfl, rfl, rfl⟩, ?_, ?_⟩
  · intro s h1 h2 h3
    simp [pnameOf, h1, h2, h3]
  · intro sources env destination desc nm tok assets hsd hrel hpn
    simp [populate_bundle_cache_entry, hsd, hrel, hpn]

/-- C7 (witness): a SunOS host is rejected. -/
theorem populate_platform_mapping_and_unsupported_witness :
    (populate_bundle_cache_entry download_release_from_github
        ⟨"SunOS", false, false, .ok [], fun _ => none⟩ "/dest"
        ⟨"github_release", some "ue4plugins",
          some "tk-framework-unrealqt", none, "v1.2.3"⟩).1
      = .error (.unsupportedPlatform "SunOS") :=
  populate_platform_mapping_and_unsupported.2.2
    download_release_from_github
    ⟨"SunOS", false, false, .ok [], fun _ => none⟩ "/dest"
    ⟨"github_release", some "ue4plugins",
      some "tk-framework-unrealqt", none, "v1.2.3"⟩
    "ue4plugins/tk-framework-unrealqt" "" [] (by decide) rfl rfl

/-- C8: every asset request the downloader emits is the one built by
`assetRequest`; with a non-empty token the Authorization header is carried
as an unredirected header — present on the initial host, absent from the
headers forwarded to a redirect target — and with an empty token no
Authorization header exists at all. -/
theorem asset_download_authorization_header_handling :
    (∀ (env : Env) (asset : Asset) (dst tok : String) (st : FsState)
        (r : Request),
        Event.httpGetAsset r
            ∈ (download_zip_github_asset env asset dst tok st).2.2 →
        r = assetRequest asset.url tok)
    ∧ (∀ url tok, tok ≠ "" →
        ("Authorization", "token " ++ tok)
            ∈ headersSentToInitialHost (assetRequest url tok)
        ∧ ∀ v, ("Authorization", v)
            ∉ headersSentOnRedirect (assetRequest url tok))
    ∧ (∀ url v, ("Authorization", v)
        ∉ headersSentToInitialHost (assetRequest url "")) := by
  refine ⟨?_, ?_, ?_⟩
  · intro env asset dst tok st r hmem
    cases hdf : env.downloadFail asset.name with
    | some e =>
      rw [download_zip_fail env asset dst tok st e hdf] at hmem
      simp at hmem
      exact hmem
    | none =>
      rw [download_zip_ok env asset dst tok st hdf] at hmem
      cases hd : st.destCreated <;> rw [hd] at hmem <;> simp at hmem <;>
        exact hmem
  · intro url tok h
    constructor
    · simp [assetRequest, headersSentToInitialHost, h]
    · intro v
      simp [assetRequest, headersSentOnRedirect]
  · intro url v
    simp [assetRequest, headersSentToInitialHost]

/-- C8 (witness): with token `abc` the header is sent to the initial host
and not on the redirect; instantiation of the theorem at a concrete
request. -/
theorem asset_download_authorization_header_handling_witness :
    ("Authorization", "token " ++ "abc")
        ∈ headersSentToInitialHost (assetRequest "u" "abc")
    ∧ ∀ v, ("Authorization", v)
        ∉ headersSentOnRedirect (assetRequest "u" "abc") :=
  asset_download_authorization_header_handling.2.1 "u" "abc" (by decide)

lemma requestedAssets_logInfo (m : String) :
    requestedAssets [Event.logInfo m] = [] := rfl

lemma requestedAssets_logException :
    requestedAssets [Event.logException] = [] := rfl

lemma requestedAssets_httpGetRelease (u : String) (b : Bool) :
    requestedAssets [Event.httpGetRelease u b] = [] := rfl

lemma requestedAssets_proxy (b : Bool) :
    requestedAssets (if b then [Event.installOpener true] else []) = [] := by
  cases b <;> rfl

lemma requestedAssets_nil : requestedAssets [] = [] := rfl

lemma requestedAssets_cons_logInfo (m : String) (l : List Event) :
    requestedAssets (Event.logInfo m :: l) = requestedAssets l := rfl

lemma requestedAssets_cons_logException (l : List Event) :
    requestedAssets (Event.logException :: l) = requestedAssets l := rfl

lemma requestedAssets_cons_installOpener (b : Bool) (l : List Event) :
    requestedAssets (Event.installOpener b :: l) = requestedAssets l := rfl

lemma requestedAssets_cons_httpGetRelease (u : String) (b : Bool)
    (l : List Event) :
    requestedAssets (Event.httpGetRelease u b :: l) = requestedAssets l := rfl

/-- C9: a failure while handling a matching asset is logged and propagated
with its payload unchanged; the matching assets are requested one at a time
in API order up to and including the failing one, none after it is
attempted, and files extracted before the failure are left in place — no
cleanup of the destination is performed. -/
theorem populate_asset_failure_propagates_and_stops
    (sources : List (String × String)) (env : Env)
    (destination : String) (desc : Descriptor)
    (nm tok pname : String)
    (pre : List Asset) (bad : Asset) (post : List Asset) (e : Nat)
    (hsd : should_download_release sources desc = some (nm, tok))
    (hrel : env.release = .ok (pre ++ bad :: post))
    (hpn : pnameOf env.system = some pname)
    (hpre : ∀ a ∈ pre, assetMatches desc.version pname a = true →
      env.downloadFail a.name = none)
    (hbm : assetMatches desc.version pname bad = true)
    (hbf : env.downloadFail bad.name = some e) :
    (populate_bundle_cache_entry sources env destination desc).1
        = .error (.downloadError e)
    ∧ Event.logException
        ∈ (populate_bundle_cache_entry sources env destination desc).2.2
    ∧ requestedAssets
        (populate_bundle_cache_entry sources env destination desc).2.2
      = (pre.filter (assetMatches desc.version pname)).map Asset.url
          ++ [bad.url]
    ∧ (∀ a ∈ pre, assetMatches desc.version pname a = true →
        pjoin destination a.name
          ∈ (populate_bundle_cache_entry sources env destination desc).2.1.files) := by
  obtain ⟨f1, f2, f3, f4⟩ := processAssets_fail env desc.version pname
    destination tok e pre bad post
    { destCreated := env.destExists, files := [] } hpre hbm hbf
  rcases hPA : processAssets env desc.version pname destination tok
      (pre ++ bad :: post) { destCreated := env.destExists, files := [] }
    with ⟨res, stf, evs⟩
  rw [hPA] at f1 f2 f3 f4
  dsimp only at f1 f2 f3 f4
  subst f1
  refine ⟨?_, ?_, ?_, ?_⟩
  · simp [populate_bundle_cache_entry, hsd, hrel, hpn, hPA]
  · simp [populate_bundle_cache_entry, hsd, hrel, hpn, hPA]
  · simp only [populate_bundle_cache_entry, hsd, hrel, hpn, hPA]
    simp only [requestedAssets_append, requestedAssets_logInfo,
      requestedAssets_logException, requestedAssets_httpGetRelease,
      requestedAssets_proxy, List.nil_append, List.append_nil, f2]
  · simp only [populate_bundle_cache_entry, hsd, hrel, hpn, hPA]
    exact f4

/-- C9 (witness): with three matching assets and a failure on the second,
the first two are requested in order, the third is not, the first asset's
files are still present and the payload error is propagated. -/
theorem populate_asset_failure_propagates_and_stops_witness :
    (populate_bundle_cache_entry download_release_from_github
        ⟨"Darwin", false, false,
          .ok [⟨"v1.2.3-py2.7-osx.zip", "u1", ["a.txt"]⟩,
               ⟨"v1.2.3-py3.7-osx.zip", "u2", []⟩,
               ⟨"v1.2.3-py3.8-osx.zip", "u3", []⟩],
          fun n => if n = "v1.2.3-py3.7-osx.zip" then some 7 else none⟩
        "/dest"
        ⟨"github_release", some "ue4plugins",
          some "tk-framework-unrealqt", none, "v1.2.3"⟩).1
      = .error (.downloadError 7)
    ∧ Event.logException
        ∈ (populate_bundle_cache_entry download_release_from_github
            ⟨"Darwin", false, false,
              .ok [⟨"v1.2.3-py2.7-osx.zip", "u1", ["a.txt"]⟩,
                   ⟨"v1.2.3-py3.7-osx.zip", "u2", []⟩,
                   ⟨"v1.2.3-py3.8-osx.zip", "u3", []⟩],
              fun n => if n = "v1.2.3-py3.7-osx.zip" then some 7 else none⟩
            "/dest"
            ⟨"github_release", some "ue4plugins",
              some "tk-framework-unrealqt", none, "v1.2.3"⟩).2.2
    ∧ requestedAssets
        (populate_bundle_cache_entry download_release_from_github
            ⟨"Darwin", false, false,
              .ok [⟨"v1.2.3-py2.7-osx.zip", "u1", ["a.txt"]⟩,
                   ⟨"v1.2.3-py3.7-osx.zip", "u2", []⟩,
                   ⟨"v1.2.3-py3.8-osx.zip", "u3", []⟩],
              fun n => if n = "v1.2.3-py3.7-osx.zip" then some 7 else none⟩
            "/dest"
            ⟨"github_release", some "ue4plugins",
              some "tk-framework-unrealqt", none, "v1.2.3"⟩).2.2
      = ((([⟨"v1.2.3-py2.7-osx.zip", "u1", ["a.txt"]⟩] :
          List Asset).filter (assetMatches "v1.2.3" "osx")).map Asset.url)
          ++ ["u2"]
    ∧ (∀ a ∈ ([⟨"v1.2.3-py2.7-osx.zip", "u1", ["a.txt"]⟩] : List Asset),
        assetMatches "v1.2.3" "osx" a = true →
        pjoin "/dest" a.name
          ∈ (populate_bundle_cache_entry download_release_from_github
              ⟨"Darwin", false, false,
                .ok [⟨"v1.2.3-py2.7-osx.zip", "u1", ["a.txt"]⟩,
                     ⟨"v1.2.3-py3.7-osx.zip", "u2", []⟩,
                     ⟨"v1.2.3-py3.8-osx.zip", "u3", []⟩],
                fun n => if n = "v1.2.3-py3.7-osx.zip" then some 7 else none⟩
              "/dest"
              ⟨"github_release", some "ue4plugins",
                some "tk-framework-unrealqt", none, "v1.2.3"⟩).2.1.files) :=
  populate_asset_failure_propagates_and_stops
    download_release_from_github
    ⟨"Darwin", false, false,
      .ok [⟨"v1.2.3-py2.7-osx.zip", "u1", ["a.txt"]⟩,
           ⟨"v1.2.3-py3.7-osx.zip", "u2", []⟩,
           ⟨"v1.2.3-py3.8-osx.zip", "u3", []⟩],
      fun n => if n = "v1.2.3-py3.7-osx.zip" then some 7 else none⟩
    "/dest"
    ⟨"github_release", some "ue4plugins",
      some "tk-framework-unrealqt", none, "v1.2.3"⟩
    "ue4plugins/tk-framework-unrealqt" "" "osx"
    [⟨"v1.2.3-py2.7-osx.zip", "u1", ["a.txt"]⟩]
    ⟨"v1.2.3-py3.7-osx.zip", "u2", []⟩
    [⟨"v1.2.3-py3.8-osx.zip", "u3", []⟩] 7
    (by decide) rfl rfl (by decide) (by decide) (by decide)

/-- C10: after a successful populate, the downloaded zip archive of every
matching asset — written as `destination/<asset name>` before extraction —
is still present in the destination alongside the extracted entries: the
hook never deletes the temporary zip file. -/
theorem populate_success_keeps_zip_archives
    (sources : List (String × String)) (env : Env)
    (destination : String) (desc : Descriptor)
    (nm tok pname : String) (assets : List Asset)
    (hsd : should_download_release sources desc = some (nm, tok))
    (hrel : env.release = .ok assets)
    (hpn : pnameOf env.system = some pname)
    (hall : ∀ a ∈ assets, assetMatches desc.version pname a = true →
      env.downloadFail a.name = none)
    (hx : ∃ a ∈ assets, assetMatches desc.version pname a = true) :
    (populate_bundle_cache_entry sources env destination desc).1 = .ok ()
    ∧ (∀ a ∈ assets, assetMatches desc.version pname a = true →
        pjoin destination a.name
          ∈ (populate_bundle_cache_entry sources env destination desc).2.1.files) := by
  obtain ⟨o1, o2, o3, o4⟩ := processAssets_ok env desc.version pname
    destination tok assets
    { destCreated := env.destExists, files := [] } hall
  rcases hPA : processAssets env desc.version pname destination tok assets
      { destCreated := env.destExists, files := [] }
    with ⟨res, stf, evs⟩
  rw [hPA] at o1 o2 o3 o4
  dsimp only at o1 o2 o3 o4
  subst o1
  have hemp : (assets.filter (assetMatches desc.version pname)).isEmpty
      = false := by
    obtain ⟨a, ha, hma⟩ := hx
    cases hval : (assets.filter (assetMatches desc.version pname)).isEmpty
    · rfl
    · have hnil := List.isEmpty_iff.mp hval
      have hmem : a ∈ assets.filter (assetMatches desc.version pname) :=
        List.mem_filter.mpr ⟨ha, hma⟩
      rw [hnil] at hmem
      exact absurd hmem (List.not_mem_nil a)
  constructor
  · simp [populate_bundle_cache_entry, hsd, hrel, hpn, hPA, hemp]
  · simp only [populate_bundle_cache_entry, hsd, hrel, hpn, hPA, hemp]
    simpa using o4

/-- C10 (witness): both matching osx assets leave their zip archives in
the destination after a fully successful populate. -/
theorem populate_success_keeps_zip_archives_witness :
    (populate_bundle_cache_entry download_release_from_github
        ⟨"Darwin", false, false,
          .ok [⟨"v1.2.3-py2.7-osx.zip", "u1", ["a.txt"]⟩,
               ⟨"v1.2.3-py3.7-osx.zip", "u2", ["b.txt"]⟩],
          fun _ => none⟩ "/dest"
        ⟨"github_release", some "ue4plugins",
          some "tk-framework-unrealqt", none, "v1.2.3"⟩).1 = .ok ()
    ∧ (∀ a ∈ ([⟨"v1.2.3-py2.7-osx.zip", "u1", ["a.txt"]⟩,
               ⟨"v1.2.3-py3.7-osx.zip", "u2", ["b.txt"]⟩] : List Asset),
        assetMatches "v1.2.3" "osx" a = true →
        pjoin "/dest" a.name
          ∈ (populate_bundle_cache_entry download_release_from_github
              ⟨"Darwin", false, false,
                .ok [⟨"v1.2.3-py2.7-osx.zip", "u1", ["a.txt"]⟩,
                     ⟨"v1.2.3-py3.7-osx.zip", "u2", ["b.txt"]⟩],
                fun _ => none⟩ "/dest"
              ⟨"github_release", some "ue4plugins",
                some "tk-framework-unrealqt", none, "v1.2.3"⟩).2.1.files) :=
  populate_success_keeps_zip_archives
    download_release_from_github
    ⟨"Darwin", false, false,
      .ok [⟨"v1.2.3-py2.7-osx.zip", "u1", ["a.txt"]⟩,
           ⟨"v1.2.3-py3.7-osx.zip", "u2", ["b.txt"]⟩],
      fun _ => none⟩ "/dest"
    ⟨"github_release", some "ue4plugins",
      some "tk-framework-unrealqt", none, "v1.2.3"⟩
    "ue4plugins/tk-framework-unrealqt" "" "osx"
    [⟨"v1.2.3-py2.7-osx.zip", "u1", ["a.txt"]⟩,
     ⟨"v1.2.3-py3.7-osx.zip", "u2", ["b.txt"]⟩]
    (by decide) rfl rfl (by decide)
    ⟨⟨"v1.2.3-py2.7-osx.zip", "u1", ["a.txt"]⟩, by decide, by decide⟩

/-- C1 (amended): the assets selected and downloaded are exactly those
whose name matches, as a prefix, the pattern
`{version}-py{digit}.{digit}-{platform}.zip` in which every `.` (the dots
of the version tag, the Python-version separator and the one before `zip`)
matches any single character — the code's `re.match` with unescaped dots
and no end anchor — in API order; on the spec's example (platform `osx`,
version `v1.2.3`, assets `v1.2.3-py2.7-osx.zip`, `v1.2.3-py3.7-osx.zip`,
`v1.2.3-py2.7-linux.zip`) exactly the first two are downloaded. -/
theorem populate_selects_exactly_regex_matching_assets :
    (∀ (sources : List (String × String)) (env : Env)
        (destination : String) (desc : Descriptor)
        (nm tok pname : String) (assets : List Asset),
      should_download_release sources desc = some (nm, tok) →
      env.release = .ok assets →
      pnameOf env.system = some pname →
      (∀ a ∈ assets, assetMatches desc.version pname a = true →
        env.downloadFail a.name = none) →
      requestedAssets
          (populate_bundle_cache_entry sources env destination desc).2.2
        = (assets.filter (assetMatches desc.version pname)).map Asset.url)
    ∧ requestedAssets
        (populate_bundle_cache_entry download_release_from_github
          ⟨"Darwin", false, false,
            .ok [⟨"v1.2.3-py2.7-osx.zip", "u1", []⟩,
                 ⟨"v1.2.3-py3.7-osx.zip", "u2", []⟩,
                 ⟨"v1.2.3-py2.7-linux.zip", "u3", []⟩],
            fun _ => none⟩ "/dest"
          ⟨"github_release", some "ue4plugins",
            some "tk-framework-unrealqt", none, "v1.2.3"⟩).2.2
      = ["u1", "u2"] := by
  constructor
  · intro sources env destination desc nm tok pname assets hsd hrel hpn hall
    obtain ⟨o1, o2, o3, o4⟩ := processAssets_ok env desc.version pname
      destination tok assets
      { destCreated := env.destExists, files := [] } hall
    rcases hPA : processAssets env desc.version pname destination tok assets
        { destCreated := env.destExists, files := [] }
      with ⟨res, stf, evs⟩
    rw [hPA] at o1 o2 o3 o4
    dsimp only at o1 o2 o3 o4
    subst o1
    cases hemp : (assets.filter (assetMatches desc.version pname)).isEmpty <;>
      simp [populate_bundle_cache_entry, hsd, hrel, hpn, hPA, hemp,
        requestedAssets_append, requestedAssets_proxy,
        requestedAssets_cons_logInfo, requestedAssets_cons_logException,
        requestedAssets_cons_installOpener,
        requestedAssets_cons_httpGetRelease, requestedAssets_nil, o2]
  · decide

/-- C1 (witness): on the spec's own example the general selection law
instantiates to the first two assets. -/
theorem populate_selects_exactly_regex_matching_assets_witness :
    requestedAssets
        (populate_bundle_cache_entry download_release_from_github
          ⟨"Darwin", false, false,
            .ok [⟨"v1.2.3-py2.7-osx.zip", "u1", []⟩,
                 ⟨"v1.2.3-py3.7-osx.zip", "u2", []⟩,
                 ⟨"v1.2.3-py2.7-linux.zip", "u3", []⟩],
            fun _ => none⟩ "/dest"
          ⟨"github_release", some "ue4plugins",
            some "tk-framework-unrealqt", none, "v1.2.3"⟩).2.2
      = (([⟨"v1.2.3-py2.7-osx.zip", "u1", []⟩,
           ⟨"v1.2.3-py3.7-osx.zip", "u2", []⟩,
           ⟨"v1.2.3-py2.7-linux.zip", "u3", []⟩] : List Asset).filter
          (assetMatches "v1.2.3" "osx")).map Asset.url :=
  populate_selects_exactly_regex_matching_assets.1
    download_release_from_github
    ⟨"Darwin", false, false,
      .ok [⟨"v1.2.3-py2.7-osx.zip", "u1", []⟩,
           ⟨"v1.2.3-py3.7-osx.zip", "u2", []⟩,
           ⟨"v1.2.3-py2.7-linux.zip", "u3", []⟩],
      fun _ => none⟩ "/dest"
    ⟨"github_release", some "ue4plugins",
      some "tk-framework-unrealqt", none, "v1.2.3"⟩
    "ue4plugins/tk-framework-unrealqt" "" "osx"
    [⟨"v1.2.3-py2.7-osx.zip", "u1", []⟩,
     ⟨"v1.2.3-py3.7-osx.zip", "u2", []⟩,
     ⟨"v1.2.3-py2.7-linux.zip", "u3", []⟩]
    (by decide) rfl rfl (by decide)

/-- C1 (counterexample): the asset name `v1a2a3-py2b7-osxczipzz` does not
match the literal pattern `{version}-py{digit}.{digit}-{platform}.zip` for
version `v1.2.3` and platform `osx`, yet populate downloads it: every `.`
of the code's pattern matches any character and the match is
prefix-anchored only, so non-literal-matching assets are downloaded. -/
theorem populate_downloads_nonliteral_matching_asset :
    specLiteralMatch "v1.2.3" "osx" "v1a2a3-py2b7-osxczipzz" = false
    ∧ requestedAssets
        (populate_bundle_cache_entry download_release_from_github
          ⟨"Darwin", false, false,
            .ok [⟨"v1a2a3-py2b7-osxczipzz", "uX", []⟩], fun _ => none⟩
          "/dest"
          ⟨"github_release", some "ue4plugins",
            some "tk-framework-unrealqt", none, "v1.2.3"⟩).2.2
      = ["uX"] :=
  ⟨by decide, by decide⟩
